import Mathlib

/-!
Verification development for the AI-supervisor escalation system.

The definitions below are a shallow embedding of the Python sources:
  src/database/models.py          (data model)
  src/database/firebase_client.py (store operations)
  src/agent/knowledge_base.py     (knowledge index)
  src/services/help_request_service.py (help-request lifecycle)
  src/services/notification_service.py (notification log)
  src/agent/ai_agent.py, src/simple_agent.py (escalation check)

Datetimes are modelled as integer seconds since an arbitrary epoch.
Store documents are modelled as lists of records carrying their document
id; Firestore's update-by-id is modelled as a map over the list guarded
by presence of the id (an update of a missing id raises in Firestore and
is modelled as a failed, state-preserving operation).  Python floats are
modelled as rationals.
-/

namespace Frontdesk

/-- Status lifecycle for help requests (models.RequestStatus). -/
inductive RequestStatus where
  | pending
  | resolved
  | timeout
deriving DecidableEq

/-- Model for help requests from AI to supervisor (models.HelpRequest).
The id is assigned on persistence; records in the modelled store always
carry it. -/
structure HelpRequest where
  id : String
  caller_id : String
  caller_phone : String
  question : String
  context : Option String
  status : RequestStatus
  created_at : Int
  resolved_at : Option Int
  supervisor_answer : Option String
  supervisor_name : Option String
deriving DecidableEq

/-- Model for learned knowledge base entries (models.KnowledgeEntry). -/
structure KnowledgeEntry where
  id : String
  question : String
  answer : String
  source : String
  help_request_id : Option String
  created_at : Int
  updated_at : Int
  usage_count : Nat
deriving DecidableEq

/-- A record appended to NotificationService.notification_log, keeping
the fields the rendered messages embed. -/
inductive Notification where
  | supervisorAlert (requestId : String) (question : String) (callerPhone : String)
  | callerFollowup (phone : String) (question : String) (answer : String)
deriving DecidableEq

/-- Combined mutable state of the system: the two store collections, the
KnowledgeBase in-memory cache, the notification log, and a supply of
fresh document ids (Firestore generates a fresh id per created
document). -/
structure SysState where
  requests : List HelpRequest
  knowledge : List KnowledgeEntry
  kbCache : List KnowledgeEntry
  notifications : List Notification
  nextId : Nat
deriving DecidableEq

/-! String helpers modelling the Python primitives used by the code. -/

/-- Python str.lower (ASCII case folding). -/
def toLowerStr (s : String) : String :=
  String.mk (s.data.map Char.toLower)

/-- Python str.upper (ASCII case folding). -/
def toUpperStr (s : String) : String :=
  String.mk (s.data.map Char.toUpper)

/-- Python str.strip(): drop leading and trailing whitespace. -/
def pyStrip (s : String) : String :=
  String.mk (((s.data.dropWhile Char.isWhitespace).reverse.dropWhile Char.isWhitespace).reverse)

/-- Accumulator pass behind pySplit: splits a character stream at
whitespace runs, emitting the words in order. -/
def wordsAux : List Char → List Char → List String
  | [], cur => if cur.isEmpty then [] else [String.mk cur.reverse]
  | c :: cs, cur =>
    if c.isWhitespace then
      if cur.isEmpty then wordsAux cs [] else String.mk cur.reverse :: wordsAux cs []
    else wordsAux cs (c :: cur)

/-- Python str.split() with no separator: tokens are maximal runs of
non-whitespace characters; no empty tokens. -/
def pySplit (s : String) : List String :=
  wordsAux s.data []

/-- Python substring test (the `in` operator on str), on char lists. -/
def hasInfix (needle : List Char) : List Char → Bool
  | [] => needle.isEmpty
  | c :: rest => needle.isPrefixOf (c :: rest) || hasInfix needle rest

/-- Python `needle in haystack` on strings. -/
def containsSubstr (needle haystack : String) : Bool :=
  hasInfix needle.data haystack.data

/-! KnowledgeBase (src/agent/knowledge_base.py). -/

/-- KnowledgeBase._is_similar: token-set Jaccard similarity of the two
strings compared against the threshold (Python default 0.6 = 3/5); an
empty word set on either side is never similar. -/
def is_similar (q1 q2 : String) (threshold : Rat) : Bool :=
  let words1 := (pySplit q1).toFinset
  let words2 := (pySplit q2).toFinset
  if words1 = ∅ ∨ words2 = ∅ then false
  else decide ((((words1 ∩ words2).card : Rat) / ((words1 ∪ words2).card : Rat)) ≥ threshold)

/-- The cache loop of KnowledgeBase.search: first entry (in cache order)
whose lower-cased question is similar to the already-lower-cased query. -/
def searchCacheLoop (qLower : String) : List KnowledgeEntry → Option KnowledgeEntry
  | [] => none
  | e :: rest =>
    if is_similar qLower (toLowerStr e.question) (3/5) then some e
    else searchCacheLoop qLower rest

/-- The match condition of FirebaseClient.search_knowledge for one
entry: the lower-cased query is a substring of the lower-cased question
or of the lower-cased answer. -/
def storeMatch (query : String) (e : KnowledgeEntry) : Bool :=
  containsSubstr (toLowerStr query) (toLowerStr e.question)
    || containsSubstr (toLowerStr query) (toLowerStr e.answer)

/-- Descending usage_count, the sort key of search_knowledge results
(Python sorted with reverse=True is stable; ties keep stream order). -/
def usageGe (a b : KnowledgeEntry) : Prop :=
  b.usage_count ≤ a.usage_count

instance : DecidableRel usageGe :=
  fun a b => inferInstanceAs (Decidable (b.usage_count ≤ a.usage_count))

instance : IsTotal KnowledgeEntry usageGe :=
  ⟨fun a b => Nat.le_total b.usage_count a.usage_count⟩

instance : IsTrans KnowledgeEntry usageGe :=
  ⟨fun _ _ _ hab hbc => le_trans hbc hab⟩

/-- FirebaseClient.search_knowledge: scan the knowledge collection,
keep entries whose question or answer contains the lower-cased query,
and return them sorted by descending usage_count. -/
def search_knowledge (store : List KnowledgeEntry) (query : String) : List KnowledgeEntry :=
  List.insertionSort usageGe (store.filter (storeMatch query))

/-- FirebaseClient.increment_knowledge_usage: add one to the stored
usage_count of the document with the given id and stamp updated_at. -/
def increment_knowledge_usage (store : List KnowledgeEntry) (kid : String) (now : Int) :
    List KnowledgeEntry :=
  store.map (fun e =>
    if e.id = kid then { e with usage_count := e.usage_count + 1, updated_at := now } else e)

/-- KnowledgeBase.search: lower-case the query, scan the cache for the
first similar entry, otherwise ask the store's substring search and take
its top result; every returned entry has its usage incremented through
the store.  Returns the result and the updated knowledge collection. -/
def KBsearch (cache store : List KnowledgeEntry) (question : String) (now : Int) :
    Option KnowledgeEntry × List KnowledgeEntry :=
  let qLower := toLowerStr question
  match searchCacheLoop qLower cache with
  | some e => (some e, increment_knowledge_usage store e.id now)
  | none =>
    match search_knowledge store question with
    | [] => (none, store)
    | best :: _ => (some best, increment_knowledge_usage store best.id now)

/-- KnowledgeBase.add_knowledge acting on the combined state: build an
entry tagged source supervisor, persist it under a fresh id, append it
to the in-memory cache, and return the new id. -/
def add_knowledge (s : SysState) (question answer : String)
    (help_request_id : Option String) (now : Int) : String × SysState :=
  let entry : KnowledgeEntry :=
    { id := toString s.nextId
      question := question
      answer := answer
      source := "supervisor"
      help_request_id := help_request_id
      created_at := now
      updated_at := now
      usage_count := 0 }
  (entry.id,
    { s with
      knowledge := s.knowledge ++ [entry]
      kbCache := s.kbCache ++ [entry]
      nextId := s.nextId + 1 })

/-! Help-request store operations (src/database/firebase_client.py). -/

/-- FirebaseClient.get_help_request: fetch a request by document id. -/
def get_help_request (reqs : List HelpRequest) (rid : String) : Option HelpRequest :=
  reqs.find? (fun r => r.id = rid)

/-- Descending created_at, the sort key of the pending list and of
get_all_requests (newest first). -/
def createdGe (a b : HelpRequest) : Prop :=
  b.created_at ≤ a.created_at

instance : DecidableRel createdGe :=
  fun a b => inferInstanceAs (Decidable (b.created_at ≤ a.created_at))

instance : IsTotal HelpRequest createdGe :=
  ⟨fun a b => Int.le_total b.created_at a.created_at⟩

instance : IsTrans HelpRequest createdGe :=
  ⟨fun _ _ _ hab hbc => le_trans hbc hab⟩

/-- FirebaseClient.get_pending_requests: all requests whose status is
pending, sorted by created_at, newest first. -/
def get_pending_requests (reqs : List HelpRequest) : List HelpRequest :=
  List.insertionSort createdGe (reqs.filter (fun r => r.status = RequestStatus.pending))

/-- FirebaseClient.get_all_requests: requests ordered by created_at
descending, capped at the given limit. -/
def get_all_requests (reqs : List HelpRequest) (limit : Nat) : List HelpRequest :=
  (List.insertionSort createdGe reqs).take limit

/-- The field update FirebaseClient.resolve_help_request performs on the
stored document: status resolved, answer, resolver name, resolution
timestamp. -/
def stampResolved (answer supervisor_name : String) (now : Int) (r : HelpRequest) : HelpRequest :=
  { r with
    status := RequestStatus.resolved
    supervisor_answer := some answer
    supervisor_name := some supervisor_name
    resolved_at := some now }

/-- FirebaseClient.resolve_help_request: update the document with the
given id with the resolution fields; updating a missing document raises
in Firestore, reported as false with no state change. -/
def resolve_help_request (reqs : List HelpRequest) (rid answer supervisor_name : String)
    (now : Int) : Bool × List HelpRequest :=
  match reqs.find? (fun r => r.id = rid) with
  | none => (false, reqs)
  | some _ =>
    (true, reqs.map (fun r => if r.id = rid then stampResolved answer supervisor_name now r else r))

/-- The field update FirebaseClient.timeout_help_request performs:
status timeout and a resolution timestamp, no answer or resolver. -/
def stampTimeout (now : Int) (r : HelpRequest) : HelpRequest :=
  { r with status := RequestStatus.timeout, resolved_at := some now }

/-- FirebaseClient.timeout_help_request: update the document with the
given id to timeout; a missing document is reported as false with no
state change. -/
def timeout_help_request (reqs : List HelpRequest) (rid : String) (now : Int) :
    Bool × List HelpRequest :=
  match reqs.find? (fun r => r.id = rid) with
  | none => (false, reqs)
  | some _ =>
    (true, reqs.map (fun r => if r.id = rid then stampTimeout now r else r))

/-! HelpRequestService (src/services/help_request_service.py). -/

/-- HelpRequestService.create_request: persist a new pending request
under a fresh id, then notify the supervisor; returns the new id. -/
def create_request (s : SysState) (caller_id caller_phone question : String)
    (context : Option String) (now : Int) : String × SysState :=
  let rid := toString s.nextId
  let req : HelpRequest :=
    { id := rid
      caller_id := caller_id
      caller_phone := caller_phone
      question := question
      context := context
      status := RequestStatus.pending
      created_at := now
      resolved_at := none
      supervisor_answer := none
      supervisor_name := none }
  (rid,
    { s with
      requests := s.requests ++ [req]
      nextId := s.nextId + 1
      notifications := s.notifications ++ [Notification.supervisorAlert rid question caller_phone] })

/-- HelpRequestService.resolve_request: look the request up by id (fail
with no mutation if absent), mark it resolved in the store, add the
question/answer pair to the knowledge base, and send the follow-up to
the caller. -/
def resolve_request (s : SysState) (rid answer supervisor_name : String) (now : Int) :
    Bool × SysState :=
  match get_help_request s.requests rid with
  | none => (false, s)
  | some req =>
    let step := resolve_help_request s.requests rid answer supervisor_name now
    if step.fst then
      let s1 : SysState := { s with requests := step.snd }
      let s2 := (add_knowledge s1 req.question answer (some rid) now).snd
      (true,
        { s2 with
          notifications :=
            s2.notifications ++ [Notification.callerFollowup req.caller_phone req.question answer] })
    else (false, { s with requests := step.snd })

/-- The staleness test of HelpRequestService.timeout_old_requests: the
request's age in hours, (now - created_at) / 3600, strictly exceeds the
threshold; over the integers, now - created_at > hours * 3600. -/
def isStale (now hours : Int) (r : HelpRequest) : Bool :=
  decide (hours * 3600 < now - r.created_at)

/-- HelpRequestService.timeout_old_requests: snapshot the pending list,
then mark each pending request older than the threshold as timed out in
the store.  No notification is sent. -/
def timeout_old_requests (s : SysState) (now hours : Int) : SysState :=
  let pending := get_pending_requests s.requests
  { s with
    requests :=
      pending.foldl
        (fun acc r => if isStale now hours r then (timeout_help_request acc r.id now).snd else acc)
        s.requests }

/-- Round half to even at the integer position, Python round(x). -/
def roundHalfEven (x : Rat) : Int :=
  let n := Int.floor x
  let frac := x - n
  if frac < 1/2 then n
  else if 1/2 < frac then n + 1
  else if n % 2 = 0 then n else n + 1

/-- Python round(x, 1) on exact rationals: round half to even at one
decimal place (binary floating-point artifacts are not modelled). -/
def pyRound1 (x : Rat) : Rat :=
  ((roundHalfEven (10 * x) : Int) : Rat) / 10

/-- The dictionary HelpRequestService.get_stats returns. -/
structure Stats where
  total_requests : Nat
  pending : Nat
  resolved : Nat
  timeout : Nat
  avg_resolution_time_minutes : Rat
  resolution_rate : Rat
deriving DecidableEq

/-- HelpRequestService.get_stats over the fetched request window:
status counts, the rounded mean resolution time in minutes over
resolved requests carrying a resolution timestamp, and the rounded
resolution rate, with both aggregates 0 on an empty window. -/
def get_stats (reqs : List HelpRequest) : Stats :=
  let total := reqs.length
  let resolutionTimes : List Rat :=
    reqs.filterMap (fun r =>
      match r.status, r.resolved_at with
      | RequestStatus.resolved, some t => some (((t - r.created_at : Int) : Rat) / 60)
      | _, _ => none)
  let avg : Rat :=
    if resolutionTimes = [] then 0 else resolutionTimes.sum / (resolutionTimes.length : Rat)
  let resolvedCount := (reqs.filter (fun r => r.status = RequestStatus.resolved)).length
  { total_requests := total
    pending := (reqs.filter (fun r => r.status = RequestStatus.pending)).length
    resolved := resolvedCount
    timeout := (reqs.filter (fun r => r.status = RequestStatus.timeout)).length
    avg_resolution_time_minutes := pyRound1 avg
    resolution_rate :=
      if 0 < total then pyRound1 (((resolvedCount : Rat) / (total : Rat)) * 100) else 0 }

/-- HelpRequestService.get_stats as called on the service: the window is
the most recent 1000 requests. -/
def get_stats_service (s : SysState) : Stats :=
  get_stats (get_all_requests s.requests 1000)

/-! Escalation check (src/agent/ai_agent.py and src/simple_agent.py).
The LLM call outcome is a parameter: ok with the raw completion text, or
error when the call raises.  The call-log update that follows an
escalation is outside the modelled state. -/

/-- FrontdeskAIAgent._check_for_escalation: on a successful oracle call,
strip and upper-case the verdict and escalate (create a help request)
when it contains NO; when the oracle call raises, the handler only
prints the error and returns, leaving the state unchanged. -/
def check_for_escalation (s : SysState) (user_message caller_id caller_phone : String)
    (context : Option String) (now : Int) (oracle : Except String String) : SysState :=
  match oracle with
  | Except.error _ => s
  | Except.ok raw =>
    let decision := toUpperStr (pyStrip raw)
    if containsSubstr "NO" decision then
      (create_request s caller_id caller_phone user_message context now).snd
    else s

/-- SimpleFrontdeskAgent._should_escalate (src/simple_agent.py), verdict
part only: contains NO after strip and upper-case; on error, escalate to
be safe. -/
def should_escalate (oracle : Except String String) : Bool :=
  match oracle with
  | Except.ok raw => containsSubstr "NO" (toUpperStr (pyStrip raw))
  | Except.error _ => true

/-! Measurement helpers and concrete fixtures used by the theorems. -/

/-- Total stored usage_count of the documents with the given id. -/
def usageOfId : List KnowledgeEntry → String → Nat
  | [], _ => 0
  | e :: rest, kid => (if e.id = kid then e.usage_count else 0) + usageOfId rest kid

/-- Number of documents with the given id. -/
def countId : List KnowledgeEntry → String → Nat
  | [], _ => 0
  | e :: rest, kid => (if e.id = kid then 1 else 0) + countId rest kid

/-- Effect of one timeout_help_request call on one stored record. -/
def applyStamp (rid : String) (now : Int) (r : HelpRequest) : HelpRequest :=
  if r.id = rid then stampTimeout now r else r

/-- Effect of a sequence of timeout_help_request calls on one record. -/
def applySeq (now : Int) (rids : List String) (x : HelpRequest) : HelpRequest :=
  rids.foldl (fun y rid => if y.id = rid then stampTimeout now y else y) x

/-- Net effect of the sweep on one record: pending-and-stale records
are stamped timeout with the sweep time, everything else is untouched. -/
def sweepFun (now hours : Int) (r : HelpRequest) : HelpRequest :=
  if r.status = RequestStatus.pending ∧ isStale now hours r = true then stampTimeout now r else r

/-- Spec-side average: the plain (unrounded) mean of
(resolved_at - created_at) in minutes over RESOLVED requests, 0 when
there are none. -/
def specAvgMinutes (reqs : List HelpRequest) : Rat :=
  let ds := (reqs.filter (fun r => r.status = RequestStatus.resolved)).map
    (fun r => (((r.resolved_at.getD 0) - r.created_at : Int) : Rat) / 60)
  if ds = [] then 0 else ds.sum / (ds.length : Rat)

/-- Demo entry whose question overlaps the demo query at Jaccard 2/3. -/
def entA : KnowledgeEntry :=
  { id := "kA", question := "a b c d x", answer := "ansA", source := "supervisor"
    help_request_id := none, created_at := 0, updated_at := 0, usage_count := 0 }

/-- Demo entry whose question matches the demo query exactly. -/
def entB : KnowledgeEntry :=
  { id := "kB", question := "a b c d e", answer := "ansB", source := "supervisor"
    help_request_id := none, created_at := 0, updated_at := 0, usage_count := 0 }

/-- Demo entry whose question and answer contain no whitespace at all. -/
def entC : KnowledgeEntry :=
  { id := "kC", question := "hours", answer := "9to7", source := "supervisor"
    help_request_id := none, created_at := 0, updated_at := 0, usage_count := 5 }

/-- The empty system state. -/
def state0 : SysState :=
  { requests := [], knowledge := [], kbCache := [], notifications := [], nextId := 0 }

/-- A help request already in the RESOLVED terminal state. -/
def reqResolved : HelpRequest :=
  { id := "r1", caller_id := "c1", caller_phone := "+1-555-1234567", question := "q?"
    context := none, status := RequestStatus.resolved, created_at := 0
    resolved_at := some 10, supervisor_answer := some "old answer"
    supervisor_name := some "Supervisor" }

/-- A state whose only request is already resolved. -/
def stateResolved : SysState :=
  { requests := [reqResolved], knowledge := [], kbCache := [], notifications := [], nextId := 0 }

/-- A pending help request created at time 0. -/
def reqPending : HelpRequest :=
  { id := "p1", caller_id := "c2", caller_phone := "+1-555-0000000", question := "old?"
    context := none, status := RequestStatus.pending, created_at := 0
    resolved_at := none, supervisor_answer := none, supervisor_name := none }

/-- A state with one stale pending request and one resolved request. -/
def stateSweep : SysState :=
  { requests := [reqPending, reqResolved], knowledge := [], kbCache := []
    notifications := [], nextId := 0 }

/-- A resolved help request whose resolution took 20 seconds. -/
def reqQuick : HelpRequest :=
  { id := "r2", caller_id := "c3", caller_phone := "+1-555-2222222", question := "quick?"
    context := none, status := RequestStatus.resolved, created_at := 0
    resolved_at := some 20, supervisor_answer := some "a", supervisor_name := some "S" }

/-! Helper lemmas about the similarity check. -/

/-- Spec-side reading of the similarity score: intersection size over
union size of the word sets (a rational; both sides assumed tokenized
and lower-cased by the caller, as in the code). -/
def jaccardScore (q1 q2 : String) : Rat :=
  let w1 := (pySplit q1).toFinset
  let w2 := (pySplit q2).toFinset
  ((w1 ∩ w2).card : Rat) / ((w1 ∪ w2).card : Rat)

/-- Computable twin of the similarity test at the fixed 0.6 threshold,
with the rational comparison replaced by an integer one. -/
def simB (q1 q2 : String) : Bool :=
  decide ((pySplit q1).toFinset ≠ ∅ ∧ (pySplit q2).toFinset ≠ ∅ ∧
    3 * ((pySplit q1).toFinset ∪ (pySplit q2).toFinset).card
      ≤ 5 * ((pySplit q1).toFinset ∩ (pySplit q2).toFinset).card)

theorem is_similar_iff (q1 q2 : String) :
    is_similar q1 q2 (3/5) = true ↔
      ((pySplit q1).toFinset ≠ ∅ ∧ (pySplit q2).toFinset ≠ ∅ ∧
        3 * ((pySplit q1).toFinset ∪ (pySplit q2).toFinset).card
          ≤ 5 * ((pySplit q1).toFinset ∩ (pySplit q2).toFinset).card) := by
  simp only [is_similar]
  by_cases h : (pySplit q1).toFinset = ∅ ∨ (pySplit q2).toFinset = ∅
  · rcases h with h1 | h1 <;> simp [h1]
  · push_neg at h
    have hne : ((pySplit q1).toFinset ∪ (pySplit q2).toFinset).Nonempty := by
      rcases Finset.nonempty_iff_ne_empty.mpr h.1 with ⟨x, hx⟩
      exact ⟨x, Finset.mem_union_left _ hx⟩
    have hu : (0 : Rat) < (((pySplit q1).toFinset ∪ (pySplit q2).toFinset).card : Rat) := by
      exact_mod_cast Finset.card_pos.mpr hne
    rw [if_neg (by tauto), decide_eq_true_iff, ge_iff_le,
      div_le_div_iff₀ (by norm_num) hu,
      mul_comm (((((pySplit q1).toFinset ∩ (pySplit q2).toFinset).card : Nat) : Rat)) (5 : Rat)]
    constructor
    · intro hle
      refine ⟨h.1, h.2, ?_⟩
      exact_mod_cast hle
    · intro hle
      exact_mod_cast hle.2.2

theorem is_similar_eq_simB (q1 q2 : String) : is_similar q1 q2 (3/5) = simB q1 q2 := by
  have h1 := is_similar_iff q1 q2
  have h2 : simB q1 q2 = true ↔
      ((pySplit q1).toFinset ≠ ∅ ∧ (pySplit q2).toFinset ≠ ∅ ∧
        3 * ((pySplit q1).toFinset ∪ (pySplit q2).toFinset).card
          ≤ 5 * ((pySplit q1).toFinset ∩ (pySplit q2).toFinset).card) := by
    simp only [simB, decide_eq_true_iff]
  rw [Bool.eq_iff_iff, h1, h2]

theorem searchCacheLoop_eq_find (q : String) (cache : List KnowledgeEntry) :
    searchCacheLoop q cache
      = cache.find? (fun e => is_similar q (toLowerStr e.question) (3/5)) := by
  induction cache with
  | nil => rfl
  | cons e rest ih =>
    simp only [searchCacheLoop, List.find?]
    by_cases h : is_similar q (toLowerStr e.question) (3/5) = true <;> simp [h, ih]

theorem is_similar_iff_jaccard (q1 q2 : String) :
    is_similar q1 q2 (3/5) = true ↔
      ((pySplit q1).toFinset ≠ ∅ ∧ (pySplit q2).toFinset ≠ ∅ ∧
        (3 : Rat)/5 ≤ jaccardScore q1 q2) := by
  simp only [is_similar, jaccardScore]
  by_cases h : (pySplit q1).toFinset = ∅ ∨ (pySplit q2).toFinset = ∅
  · rcases h with h1 | h1 <;> simp [h1]
  · push_neg at h
    rw [if_neg (by tauto), decide_eq_true_iff, ge_iff_le]
    constructor
    · intro hle
      exact ⟨h.1, h.2, hle⟩
    · intro hle
      exact hle.2.2

theorem KBsearch_cache_hit (cache store : List KnowledgeEntry) (q : String) (now : Int)
    (e : KnowledgeEntry) (h : searchCacheLoop (toLowerStr q) cache = some e) :
    KBsearch cache store q now = (some e, increment_knowledge_usage store e.id now) := by
  simp only [KBsearch, h]

theorem KBsearch_cache_miss (cache store : List KnowledgeEntry) (q : String) (now : Int)
    (h : searchCacheLoop (toLowerStr q) cache = none) :
    KBsearch cache store q now
      = (match search_knowledge store q with
         | [] => (none, store)
         | best :: _ => (some best, increment_knowledge_usage store best.id now)) := by
  simp only [KBsearch, h]

/-- C3: search lower-cases the query; the cache phase scores each entry
by the Jaccard ratio (intersection over union of the whitespace-token
word sets, lower-cased) and returns the first entry in cache order
whose score reaches 0.6 — first match, not best match, as the final
conjunct shows on a cache whose second entry scores strictly higher. -/
theorem cache_similarity_first_match_C3 :
    (∀ q1 q2, is_similar q1 q2 (3/5) = true ↔
      ((pySplit q1).toFinset ≠ ∅ ∧ (pySplit q2).toFinset ≠ ∅ ∧
        (3 : Rat)/5 ≤ jaccardScore q1 q2))
  ∧ (∀ cache q, searchCacheLoop (toLowerStr q) cache
      = cache.find? (fun e => is_similar (toLowerStr q) (toLowerStr e.question) (3/5)))
  ∧ (∀ cache store now q e,
      cache.find? (fun e2 => is_similar (toLowerStr q) (toLowerStr e2.question) (3/5)) = some e →
      (KBsearch cache store q now).fst = some e)
  ∧ ((KBsearch [entA, entB] [] "a b c d e" 0).fst = some entA
      ∧ jaccardScore (toLowerStr "a b c d e") (toLowerStr entB.question) = 1
      ∧ jaccardScore (toLowerStr "a b c d e") (toLowerStr entA.question) = 2/3) := by
  refine ⟨is_similar_iff_jaccard, fun cache q => searchCacheLoop_eq_find _ cache, ?_, ?_, ?_, ?_⟩
  · intro cache store now q e hfind
    rw [KBsearch_cache_hit cache store q now e ((searchCacheLoop_eq_find _ cache).trans hfind)]
  · have hloop : searchCacheLoop (toLowerStr "a b c d e") [entA, entB] = some entA := by
      rw [searchCacheLoop_eq_find]
      simp only [is_similar_eq_simB]
      decide
    rw [KBsearch_cache_hit _ _ _ _ _ hloop]
  · have hi : ((pySplit (toLowerStr "a b c d e")).toFinset
        ∩ (pySplit (toLowerStr entB.question)).toFinset).card = 5 := by decide
    have hu : ((pySplit (toLowerStr "a b c d e")).toFinset
        ∪ (pySplit (toLowerStr entB.question)).toFinset).card = 5 := by decide
    simp only [jaccardScore, hi, hu]
    norm_num
  · have hi : ((pySplit (toLowerStr "a b c d e")).toFinset
        ∩ (pySplit (toLowerStr entA.question)).toFinset).card = 4 := by decide
    have hu : ((pySplit (toLowerStr "a b c d e")).toFinset
        ∪ (pySplit (toLowerStr entA.question)).toFinset).card = 6 := by decide
    simp only [jaccardScore, hi, hu]
    norm_num

/-- Witness for C3: a concrete cache in which the first entry matches
the query at threshold and is returned by the full search. -/
theorem cache_similarity_first_match_C3_witness :
    List.find? (fun e2 => is_similar (toLowerStr "a b c d e") (toLowerStr e2.question) (3/5))
        [entB] = some entB
    ∧ (KBsearch [entB] [] "a b c d e" 0).fst = some entB := by
  have hfind : List.find?
      (fun e2 => is_similar (toLowerStr "a b c d e") (toLowerStr e2.question) (3/5))
      [entB] = some entB := by
    simp only [is_similar_eq_simB]
    decide
  exact ⟨hfind, cache_similarity_first_match_C3.2.2.1 [entB] [] 0 "a b c d e" entB hfind⟩

/-! Usage-count accounting for the knowledge store. -/

theorem usageOfId_increment_self (store : List KnowledgeEntry) (kid : String) (now : Int) :
    usageOfId (increment_knowledge_usage store kid now) kid
      = usageOfId store kid + countId store kid := by
  induction store with
  | nil => rfl
  | cons e rest ih =>
    by_cases h : e.id = kid <;>
      simp [increment_knowledge_usage, usageOfId, countId, h] at * <;> omega

theorem usageOfId_increment_ne (store : List KnowledgeEntry) (kid kid2 : String) (now : Int)
    (h : kid2 ≠ kid) :
    usageOfId (increment_knowledge_usage store kid now) kid2 = usageOfId store kid2 := by
  induction store with
  | nil => rfl
  | cons e rest ih =>
    by_cases h1 : e.id = kid
    · simp [increment_knowledge_usage, usageOfId, h1, Ne.symm h] at *
      exact ih
    · simp [increment_knowledge_usage, usageOfId, h1] at *
      omega

theorem countId_eq_zero (store : List KnowledgeEntry) (kid : String)
    (h : kid ∉ store.map (fun e => e.id)) : countId store kid = 0 := by
  induction store with
  | nil => rfl
  | cons e rest ih =>
    simp only [List.map_cons, List.mem_cons] at h
    push_neg at h
    have hne : ¬ e.id = kid := fun hc => h.1 hc.symm
    simp [countId, hne, ih h.2]

theorem countId_eq_one (store : List KnowledgeEntry) (kid : String)
    (hnd : (store.map (fun e => e.id)).Nodup) (hmem : kid ∈ store.map (fun e => e.id)) :
    countId store kid = 1 := by
  induction store with
  | nil => simp at hmem
  | cons e rest ih =>
    simp only [List.map_cons, List.nodup_cons] at hnd
    simp only [List.map_cons, List.mem_cons] at hmem
    rcases hmem with rfl | hmem
    · simp [countId, countId_eq_zero rest e.id hnd.1]
    · have hne : ¬ e.id = kid := fun hc => hnd.1 (hc ▸ hmem)
      simp [countId, hne, ih hnd.2 hmem]

theorem head_usage_max {l : List KnowledgeEntry} {b : KnowledgeEntry} {rest : List KnowledgeEntry}
    (h : List.insertionSort usageGe l = b :: rest) :
    ∀ x ∈ l, x.usage_count ≤ b.usage_count := by
  intro x hx
  have hs : List.Sorted usageGe (b :: rest) := h ▸ List.sorted_insertionSort usageGe l
  have hxmem : x ∈ b :: rest := by
    have hm := (List.perm_insertionSort usageGe l).mem_iff.mpr hx
    rwa [h] at hm
  rcases List.mem_cons.mp hxmem with rfl | hmem
  · exact le_refl _
  · exact List.rel_of_sorted_cons hs x hmem

/-- C4: every search that returns an entry bumps that entry's stored
usage_count by exactly one, through the store; a search that returns
none leaves the store untouched. -/
theorem search_usage_increment_C4 (cache store : List KnowledgeEntry) (q : String) (now : Int) :
    ((KBsearch cache store q now).fst = none → (KBsearch cache store q now).snd = store)
  ∧ (∀ e, (KBsearch cache store q now).fst = some e →
      (KBsearch cache store q now).snd = increment_knowledge_usage store e.id now
      ∧ ((store.map (fun x => x.id)).Nodup → e.id ∈ store.map (fun x => x.id) →
          usageOfId (KBsearch cache store q now).snd e.id = usageOfId store e.id + 1)
      ∧ (∀ kid, kid ≠ e.id →
          usageOfId (KBsearch cache store q now).snd kid = usageOfId store kid)) := by
  have main : ∀ e, KBsearch cache store q now = (some e, increment_knowledge_usage store e.id now) →
      (KBsearch cache store q now).snd = increment_knowledge_usage store e.id now
      ∧ ((store.map (fun x => x.id)).Nodup → e.id ∈ store.map (fun x => x.id) →
          usageOfId (KBsearch cache store q now).snd e.id = usageOfId store e.id + 1)
      ∧ (∀ kid, kid ≠ e.id →
          usageOfId (KBsearch cache store q now).snd kid = usageOfId store kid) := by
    intro e he
    rw [he]
    refine ⟨rfl, fun hnd hmem => ?_, fun kid hne => ?_⟩
    · rw [usageOfId_increment_self, countId_eq_one store e.id hnd hmem]
    · exact usageOfId_increment_ne store e.id kid now hne
  cases hloop : searchCacheLoop (toLowerStr q) cache with
  | some e0 =>
    have hk := KBsearch_cache_hit cache store q now e0 hloop
    constructor
    · intro hnone
      rw [hk] at hnone
      simp at hnone
    · intro e he
      rw [hk] at he
      have he2 : e0 = e := by simpa using he
      subst he2
      exact main e0 hk
  | none =>
    have hk := KBsearch_cache_miss cache store q now hloop
    cases hsk : search_knowledge store q with
    | nil =>
      simp only [hsk] at hk
      constructor
      · intro _
        rw [hk]
      · intro e he
        rw [hk] at he
        simp at he
    | cons b rest =>
      simp only [hsk] at hk
      constructor
      · intro hnone
        rw [hk] at hnone
        simp at hnone
      · intro e he
        rw [hk] at he
        have he2 : b = e := by simpa using he
        subst he2
        exact main b hk

/-- Witness for C4: a concrete cache hit bumps the hit entry's stored
usage_count from 0 to 1. -/
theorem search_usage_increment_C4_witness :
    (KBsearch [entB] [entB] "a b c d e" 5).fst = some entB
    ∧ usageOfId (KBsearch [entB] [entB] "a b c d e" 5).snd entB.id
        = usageOfId [entB] entB.id + 1 := by
  have hloop : searchCacheLoop (toLowerStr "a b c d e") [entB] = some entB := by
    rw [searchCacheLoop_eq_find]
    simp only [is_similar_eq_simB]
    decide
  have hfst : (KBsearch [entB] [entB] "a b c d e" 5).fst = some entB := by
    rw [KBsearch_cache_hit _ _ _ _ _ hloop]
  refine ⟨hfst, ?_⟩
  exact ((search_usage_increment_C4 [entB] [entB] "a b c d e" 5).2 entB hfst).2.1
    (by decide) (by decide)

/-- C5: on a cache miss, search delegates to the store's
case-insensitive substring search over question and answer and returns
its top result, an entry with maximal usage_count among all substring
matches, or none when nothing matches. -/
theorem store_substring_search_C5 (cache store : List KnowledgeEntry) (q : String) (now : Int)
    (hmiss : searchCacheLoop (toLowerStr q) cache = none) :
    (search_knowledge store q = [] → KBsearch cache store q now = (none, store))
  ∧ (∀ b rest, search_knowledge store q = b :: rest →
      (KBsearch cache store q now).fst = some b
      ∧ b ∈ store ∧ storeMatch q b = true
      ∧ ∀ x ∈ store, storeMatch q x = true → x.usage_count ≤ b.usage_count) := by
  have hk := KBsearch_cache_miss cache store q now hmiss
  constructor
  · intro hnil
    rw [hk, hnil]
  · intro b rest hcons
    rw [hcons] at hk
    have hbmem : b ∈ store.filter (storeMatch q) := by
      have hb : b ∈ b :: rest := List.mem_cons_self b rest
      rw [← hcons] at hb
      exact (List.perm_insertionSort usageGe _).mem_iff.mp hb
    have hb2 := List.mem_filter.mp hbmem
    refine ⟨by rw [hk], hb2.1, hb2.2, ?_⟩
    intro x hx hmatch
    exact head_usage_max hcons x (List.mem_filter.mpr ⟨hx, hmatch⟩)

/-- Witness for C5: a concrete miss-path query matching both demo
entries returns the first of them (equal usage counts, stable order). -/
theorem store_substring_search_C5_witness :
    searchCacheLoop (toLowerStr "ans") [] = none
    ∧ search_knowledge [entA, entB] "ans" = [entA, entB]
    ∧ (KBsearch [] [entA, entB] "ans" 0).fst = some entA := by
  have hmiss : searchCacheLoop (toLowerStr "ans") [] = none := rfl
  have hsk : search_knowledge [entA, entB] "ans" = entA :: [entB] := by decide
  exact ⟨hmiss, hsk,
    ((store_substring_search_C5 [] [entA, entB] "ans" 0 hmiss).2 entA [entB] hsk).1⟩

/-! Tokenizer and substring lemmas for degenerate queries. -/

theorem wordsAux_ne_nil (l : List Char) (cur : List Char) (h : cur ≠ []) :
    wordsAux l cur ≠ [] := by
  induction l generalizing cur with
  | nil => simp [wordsAux, h]
  | cons c cs ih =>
    have hcur : cur.isEmpty = false := by
      cases cur with
      | nil => exact absurd rfl h
      | cons a as => rfl
    by_cases hw : c.isWhitespace
    · simp [wordsAux, hw, hcur]
    · simp only [wordsAux, hw, Bool.false_eq_true, reduceIte]
      exact ih (c :: cur) (by simp)

theorem pySplit_eq_nil_iff (s : String) :
    pySplit s = [] ↔ ∀ c ∈ s.data, c.isWhitespace = true := by
  show wordsAux s.data [] = [] ↔ _
  induction s.data with
  | nil => simp [wordsAux]
  | cons c cs ih =>
    by_cases hw : c.isWhitespace
    · simp [wordsAux, hw, ih]
    · have hne := wordsAux_ne_nil cs [c] (by simp)
      simp [wordsAux, hw, hne]

theorem toLower_of_whitespace (c : Char) (h : c.isWhitespace = true) : Char.toLower c = c := by
  simp [Char.isWhitespace] at h
  rcases h with ((h | h) | h) | h <;> subst h <;> decide

theorem pySplit_toLower_nil (q : String) (h : pySplit q = []) :
    pySplit (toLowerStr q) = [] := by
  rw [pySplit_eq_nil_iff] at h ⊢
  intro c hc
  simp only [toLowerStr, List.mem_map] at hc
  obtain ⟨c0, hc0, rfl⟩ := hc
  rw [toLower_of_whitespace c0 (h c0 hc0)]
  exact h c0 hc0

theorem is_similar_empty_left (q1 q2 : String) (t : Rat) (h : pySplit q1 = []) :
    is_similar q1 q2 t = false := by
  simp [is_similar, h]

theorem hasInfix_nil (l : List Char) : hasInfix [] l = true := by
  cases l <;> rfl

theorem containsSubstr_empty_left (s : String) : containsSubstr "" s = true := by
  show hasInfix ("" : String).data s.data = true
  exact hasInfix_nil s.data

theorem toLowerStr_empty : toLowerStr "" = "" := rfl

theorem storeMatch_empty (e : KnowledgeEntry) : storeMatch "" e = true := by
  simp [storeMatch, toLowerStr_empty, containsSubstr_empty_left]

/-- C10 (amended): an empty or whitespace-only question never matches
in the cache (empty token set); for the empty question specifically the
store substring search matches every entry, so search returns a
maximal-usage entry of a non-empty store and increments its usage.  A
whitespace-only question matches only texts containing that literal
whitespace (see the counterexample). -/
theorem empty_question_search_C10 (cache store : List KnowledgeEntry) (now : Int) :
    (∀ q, pySplit q = [] → searchCacheLoop (toLowerStr q) cache = none)
  ∧ (store ≠ [] → ∃ b rest, search_knowledge store "" = b :: rest
      ∧ (KBsearch cache store "" now).fst = some b
      ∧ b ∈ store ∧ (∀ x ∈ store, x.usage_count ≤ b.usage_count)
      ∧ (KBsearch cache store "" now).snd = increment_knowledge_usage store b.id now) := by
  have part1 : ∀ q, pySplit q = [] → searchCacheLoop (toLowerStr q) cache = none := by
    intro q hq
    rw [searchCacheLoop_eq_find]
    apply List.find?_eq_none.mpr
    intro e _
    simp [is_similar_empty_left _ _ _ (pySplit_toLower_nil q hq)]
  refine ⟨part1, fun hne => ?_⟩
  have hmiss : searchCacheLoop (toLowerStr "") cache = none := part1 "" rfl
  have hk := KBsearch_cache_miss cache store "" now hmiss
  have hfilter : store.filter (storeMatch "") = store :=
    List.filter_eq_self.mpr (fun x _ => storeMatch_empty x)
  have hsrt : search_knowledge store "" = List.insertionSort usageGe store := by
    rw [search_knowledge, hfilter]
  obtain ⟨b, rest, hcons⟩ : ∃ b rest, List.insertionSort usageGe store = b :: rest := by
    cases hs : List.insertionSort usageGe store with
    | nil =>
      exfalso
      have hlen := (List.perm_insertionSort usageGe store).length_eq
      rw [hs] at hlen
      exact hne (List.eq_nil_of_length_eq_zero hlen.symm)
    | cons b rest => exact ⟨b, rest, rfl⟩
  have hcons2 : search_knowledge store "" = b :: rest := by rw [hsrt, hcons]
  rw [hcons2] at hk
  refine ⟨b, rest, hcons2, by rw [hk], ?_, ?_, by rw [hk]⟩
  · have hb : b ∈ b :: rest := List.mem_cons_self b rest
    rw [← hcons] at hb
    exact (List.perm_insertionSort usageGe store).mem_iff.mp hb
  · exact head_usage_max hcons

/-- Witness for C10: a whitespace-only question never cache-matches,
and the empty question on a one-entry store returns that entry. -/
theorem empty_question_search_C10_witness :
    pySplit " " = [] ∧ searchCacheLoop (toLowerStr " ") [entB] = none
    ∧ (∃ b rest, search_knowledge [entA] "" = b :: rest
        ∧ (KBsearch [] [entA] "" 0).fst = some b
        ∧ b ∈ [entA] ∧ (∀ x ∈ [entA], x.usage_count ≤ b.usage_count)
        ∧ (KBsearch [] [entA] "" 0).snd = increment_knowledge_usage [entA] b.id 0) := by
  refine ⟨by decide, (empty_question_search_C10 [entB] [] 0).1 " " (by decide), ?_⟩
  exact (empty_question_search_C10 [] [entA] 0).2 (by decide)

/-- Counterexample to C10 as stated: on the whitespace-only question
consisting of a single space, the store substring search does not match
an entry free of whitespace, so search returns none and leaves the
non-empty store unchanged. -/
theorem empty_question_search_C10_cex :
    ([entC] : List KnowledgeEntry) ≠ []
    ∧ KBsearch [] [entC] " " 0 = (none, [entC]) := by
  refine ⟨by decide, ?_⟩
  show (match searchCacheLoop (toLowerStr " ") [] with
    | some e => (some e, increment_knowledge_usage [entC] e.id 0)
    | none =>
      match search_knowledge [entC] " " with
      | [] => (none, [entC])
      | best :: _ => (some best, increment_knowledge_usage [entC] best.id 0)) = (none, [entC])
  decide

/-! Resolution lifecycle claims. -/

/-- C6: resolving an id that is not in the store fails with no mutation:
no knowledge entry, no notification, no request change. -/
theorem resolve_missing_id_C6 (s : SysState) (rid answer sup : String) (now : Int)
    (h : get_help_request s.requests rid = none) :
    resolve_request s rid answer sup now = (false, s) := by
  simp only [resolve_request, h]

/-- Witness for C6: resolving an id against the empty store. -/
theorem resolve_missing_id_C6_witness :
    get_help_request state0.requests "nonexistent-id" = none
    ∧ resolve_request state0 "nonexistent-id" "answer" "Supervisor" 0 = (false, state0) :=
  ⟨rfl, resolve_missing_id_C6 state0 "nonexistent-id" "answer" "Supervisor" 0 rfl⟩

/-- C1 (amended): resolve accepts any id present in the store,
regardless of its current status: it returns true, restamps the
resolution fields, creates one new knowledge entry from the stored
question, and sends one caller follow-up.  RESOLVED and TIMEOUT are not
enforced as terminal by resolve; only a missing id is rejected. -/
theorem resolve_existing_any_status_C1 (s : SysState) (rid answer sup : String) (now : Int)
    (req : HelpRequest) (h : get_help_request s.requests rid = some req) :
    (resolve_request s rid answer sup now).fst = true
    ∧ (resolve_request s rid answer sup now).snd.requests
        = s.requests.map (fun r => if r.id = rid then stampResolved answer sup now r else r)
    ∧ (resolve_request s rid answer sup now).snd.knowledge
        = s.knowledge ++ [⟨toString s.nextId, req.question, answer, "supervisor",
            some rid, now, now, 0⟩]
    ∧ (resolve_request s rid answer sup now).snd.kbCache
        = s.kbCache ++ [⟨toString s.nextId, req.question, answer, "supervisor",
            some rid, now, now, 0⟩]
    ∧ (resolve_request s rid answer sup now).snd.notifications
        = s.notifications ++ [Notification.callerFollowup req.caller_phone req.question answer] := by
  have hf : s.requests.find? (fun r => r.id = rid) = some req := h
  simp [resolve_request, h, resolve_help_request, hf, add_knowledge]

/-- Witness for C1 (amended) at a resolved request. -/
theorem resolve_existing_any_status_C1_witness :
    get_help_request stateResolved.requests "r1" = some reqResolved
    ∧ (resolve_request stateResolved "r1" "again" "Supervisor" 100).fst = true
    ∧ (resolve_request stateResolved "r1" "again" "Supervisor" 100).snd.notifications
        = stateResolved.notifications
            ++ [Notification.callerFollowup reqResolved.caller_phone reqResolved.question
                "again"] := by
  have h : get_help_request stateResolved.requests "r1" = some reqResolved := by decide
  have hthm := resolve_existing_any_status_C1 stateResolved "r1" "again" "Supervisor" 100
    reqResolved h
  exact ⟨h, hthm.1, hthm.2.2.2.2⟩

/-- Counterexample to C1 as stated: resolving the same id while its
request is already RESOLVED is not rejected — the call returns true and
still creates a knowledge entry and a caller notification. -/
theorem resolve_terminal_C1_cex :
    reqResolved.status = RequestStatus.resolved
    ∧ (resolve_request stateResolved "r1" "again" "Supervisor" 100).fst = true
    ∧ (resolve_request stateResolved "r1" "again" "Supervisor" 100).snd.knowledge.length
        = stateResolved.knowledge.length + 1
    ∧ (resolve_request stateResolved "r1" "again" "Supervisor" 100).snd.notifications.length
        = stateResolved.notifications.length + 1 := by
  refine ⟨rfl, ?_, ?_, ?_⟩ <;> decide

/-- C2: when the escalation-oracle call raises, the handler in
src/agent/ai_agent.py only logs and drops the question — no help
request is created and no supervisor notification is sent — whereas a
successful NO verdict does escalate, and the sibling agent in
src/simple_agent.py escalates on error as the spec requires. -/
theorem oracle_failure_drops_question_C2 :
    check_for_escalation state0 "Do you have parking?" "c1" "+1-555-1234567" none 0
        (Except.error "connection error") = state0
    ∧ (check_for_escalation state0 "Do you have parking?" "c1" "+1-555-1234567" none 0
        (Except.ok "NO")).requests.length = 1
    ∧ (check_for_escalation state0 "Do you have parking?" "c1" "+1-555-1234567" none 0
        (Except.ok "NO")).notifications.length = 1
    ∧ should_escalate (Except.error "connection error") = true := by
  refine ⟨rfl, ?_, ?_, rfl⟩ <;> decide

/-- C9: learning always persists a brand-new entry tagged
source supervisor, appends it to the in-memory snapshot, and returns
its fresh id; every pre-existing entry is left in place (no merge, no
overwrite), whatever the state holds, including duplicates of the same
question. -/
theorem learn_always_new_entry_C9 (s : SysState) (q a : String) (hr : Option String)
    (now : Int) :
    (add_knowledge s q a hr now).snd.knowledge
      = s.knowledge ++ [⟨toString s.nextId, q, a, "supervisor", hr, now, now, 0⟩]
    ∧ (add_knowledge s q a hr now).snd.kbCache
      = s.kbCache ++ [⟨toString s.nextId, q, a, "supervisor", hr, now, now, 0⟩]
    ∧ (add_knowledge s q a hr now).fst = toString s.nextId
    ∧ (add_knowledge s q a hr now).snd.knowledge.length = s.knowledge.length + 1
    ∧ (∀ x ∈ s.knowledge, x ∈ (add_knowledge s q a hr now).snd.knowledge)
    ∧ (∀ x ∈ s.kbCache, x ∈ (add_knowledge s q a hr now).snd.kbCache)
    ∧ (add_knowledge s q a hr now).snd.requests = s.requests
    ∧ (add_knowledge s q a hr now).snd.notifications = s.notifications := by
  refine ⟨rfl, rfl, rfl, by simp [add_knowledge], ?_, ?_, rfl, rfl⟩
  · intro x hx
    simp [add_knowledge, hx]
  · intro x hx
    simp [add_knowledge, hx]

/-- Witness for C9: learning on the empty state appends exactly the
new supervisor-tagged entry and returns its id. -/
theorem learn_always_new_entry_C9_witness :
    (add_knowledge state0 "do you do weddings" "yes, ask for a quote" none 7).snd.knowledge
      = state0.knowledge
        ++ [⟨toString state0.nextId, "do you do weddings", "yes, ask for a quote",
             "supervisor", none, 7, 7, 0⟩]
    ∧ (add_knowledge state0 "do you do weddings" "yes, ask for a quote" none 7).fst
        = toString state0.nextId :=
  ⟨(learn_always_new_entry_C9 state0 "do you do weddings" "yes, ask for a quote" none 7).1,
   (learn_always_new_entry_C9 state0 "do you do weddings" "yes, ask for a quote" none 7).2.2.1⟩

/-! Machinery for the timeout sweep. -/

theorem map_eq_self_of {α : Type} (l : List α) (f : α → α) (h : ∀ x ∈ l, f x = x) :
    l.map f = l := by
  induction l with
  | nil => rfl
  | cons a as ih =>
    simp only [List.map_cons, h a (List.mem_cons_self a as)]
    rw [ih (fun x hx => h x (List.mem_cons_of_mem a hx))]

theorem timeout_help_request_snd (reqs : List HelpRequest) (rid : String) (now : Int) :
    (timeout_help_request reqs rid now).snd = reqs.map (applyStamp rid now) := by
  cases hf : reqs.find? (fun r => r.id = rid) with
  | none =>
    simp only [timeout_help_request, hf]
    rw [map_eq_self_of]
    intro x hx
    have hne := List.find?_eq_none.mp hf x hx
    simp only [decide_eq_true_eq] at hne
    simp [applyStamp, hne]
  | some r0 =>
    simp only [timeout_help_request, hf]
    rfl

theorem applySeq_eq (now : Int) (rids : List String) (x : HelpRequest) :
    applySeq now rids x = if x.id ∈ rids then stampTimeout now x else x := by
  induction rids generalizing x with
  | nil => simp [applySeq]
  | cons a rest ih =>
    show applySeq now rest (if x.id = a then stampTimeout now x else x) = _
    by_cases h : x.id = a
    · have hmem : x.id ∈ a :: rest := by simp [h]
      rw [if_pos h, ih, if_pos hmem]
      have hid : (stampTimeout now x).id = x.id := rfl
      by_cases h2 : x.id ∈ rest
      · rw [if_pos (by rw [hid]; exact h2)]
        rfl
      · rw [if_neg (by rw [hid]; exact h2)]
    · rw [if_neg h, ih]
      simp [List.mem_cons, h]

theorem sweep_foldl_eq_map (now hours : Int) (todo reqs : List HelpRequest) :
    todo.foldl
        (fun acc r =>
          if isStale now hours r then (timeout_help_request acc r.id now).snd else acc)
        reqs
      = reqs.map (applySeq now ((todo.filter (isStale now hours)).map (fun r => r.id))) := by
  induction todo generalizing reqs with
  | nil =>
    simp only [List.foldl_nil, List.filter_nil, List.map_nil]
    exact (map_eq_self_of reqs _ (fun x _ => rfl)).symm
  | cons r rest ih =>
    simp only [List.foldl_cons, List.filter_cons]
    by_cases h : isStale now hours r = true
    · simp only [h, if_true, List.map_cons]
      rw [timeout_help_request_snd, ih, List.map_map]
      rfl
    · simp only [h, Bool.false_eq_true, if_false]
      exact ih reqs

theorem sweep_noop_of_no_stale (s2 : SysState) (now hours : Int)
    (h : ∀ y ∈ get_pending_requests s2.requests, ¬ isStale now hours y = true) :
    timeout_old_requests s2 now hours = s2 := by
  simp only [timeout_old_requests]
  rw [sweep_foldl_eq_map, List.filter_eq_nil_iff.mpr h]
  simp only [List.map_nil]
  rw [map_eq_self_of s2.requests (applySeq now []) (fun x _ => rfl)]

theorem mem_pending_iff (reqs : List HelpRequest) (y : HelpRequest) :
    y ∈ get_pending_requests reqs ↔ (y ∈ reqs ∧ y.status = RequestStatus.pending) := by
  unfold get_pending_requests
  rw [(List.perm_insertionSort createdGe _).mem_iff]
  simp [List.mem_filter]

/-- C7: under unique request ids, the sweep stamps TIMEOUT (with the
sweep time) exactly on the pending requests strictly older than the
threshold, leaves every other request and the notification log and the
knowledge store untouched, and re-running it immediately changes
nothing. -/
theorem timeout_sweep_C7 (s : SysState) (now hours : Int)
    (hnd : (s.requests.map (fun r => r.id)).Nodup) :
    (timeout_old_requests s now hours).requests = s.requests.map (sweepFun now hours)
    ∧ (timeout_old_requests s now hours).notifications = s.notifications
    ∧ (timeout_old_requests s now hours).knowledge = s.knowledge
    ∧ timeout_old_requests (timeout_old_requests s now hours) now hours
        = timeout_old_requests s now hours := by
  have hreq1 : (timeout_old_requests s now hours).requests
      = s.requests.map (applySeq now
          (((get_pending_requests s.requests).filter (isStale now hours)).map (fun r => r.id))) := by
    simp only [timeout_old_requests]
    exact sweep_foldl_eq_map now hours (get_pending_requests s.requests) s.requests
  have hpoint : ∀ x ∈ s.requests,
      applySeq now
          (((get_pending_requests s.requests).filter (isStale now hours)).map (fun r => r.id)) x
        = sweepFun now hours x := by
    intro x hx
    rw [applySeq_eq]
    by_cases hmem : x.id
        ∈ ((get_pending_requests s.requests).filter (isStale now hours)).map (fun r => r.id)
    · obtain ⟨y, hy, hyid⟩ := List.mem_map.mp hmem
      have hyf := List.mem_filter.mp hy
      have hyp := (mem_pending_iff s.requests y).mp hyf.1
      have hxy : y = x := List.inj_on_of_nodup_map hnd hyp.1 hx hyid
      subst hxy
      rw [if_pos hmem]
      unfold sweepFun
      rw [if_pos ⟨hyp.2, hyf.2⟩]
    · rw [if_neg hmem]
      unfold sweepFun
      rw [if_neg]
      rintro ⟨hpend, hstale⟩
      exact hmem (List.mem_map.mpr
        ⟨x, List.mem_filter.mpr ⟨(mem_pending_iff s.requests x).mpr ⟨hx, hpend⟩, hstale⟩, rfl⟩)
  have part1 : (timeout_old_requests s now hours).requests
      = s.requests.map (sweepFun now hours) :=
    hreq1.trans (List.map_congr_left hpoint)
  refine ⟨part1, rfl, rfl, ?_⟩
  have hstale2 : ∀ y ∈ get_pending_requests (timeout_old_requests s now hours).requests,
      ¬ isStale now hours y = true := by
    intro y hy
    have hyp := (mem_pending_iff (timeout_old_requests s now hours).requests y).mp hy
    have hymem := hyp.1
    rw [hreq1] at hymem
    obtain ⟨x, hx, hxy⟩ := List.mem_map.mp hymem
    rw [applySeq_eq] at hxy
    by_cases hmem : x.id
        ∈ ((get_pending_requests s.requests).filter (isStale now hours)).map (fun r => r.id)
    · rw [if_pos hmem] at hxy
      exfalso
      subst hxy
      simp [stampTimeout] at hyp
    · rw [if_neg hmem] at hxy
      subst hxy
      intro hst
      exact hmem (List.mem_map.mpr
        ⟨x, List.mem_filter.mpr
          ⟨(mem_pending_iff s.requests x).mpr ⟨hx, hyp.2⟩, hst⟩, rfl⟩)
  exact sweep_noop_of_no_stale (timeout_old_requests s now hours) now hours hstale2

/-- Witness for C7 on a concrete two-request state at threshold 24h. -/
theorem timeout_sweep_C7_witness :
    (stateSweep.requests.map (fun r => r.id)).Nodup
    ∧ (timeout_old_requests stateSweep 90000 24).requests
        = stateSweep.requests.map (sweepFun 90000 24)
    ∧ timeout_old_requests (timeout_old_requests stateSweep 90000 24) 90000 24
        = timeout_old_requests stateSweep 90000 24 := by
  have h := timeout_sweep_C7 stateSweep 90000 24 (by decide)
  exact ⟨by decide, h.1, h.2.2.2⟩

/-! Statistics (HelpRequestService.get_stats). -/

theorem resolution_times_eq (reqs : List HelpRequest)
    (hinv : ∀ r ∈ reqs, r.status = RequestStatus.resolved → r.resolved_at ≠ none) :
    reqs.filterMap (fun r =>
      match r.status, r.resolved_at with
      | RequestStatus.resolved, some t => some (((t - r.created_at : Int) : Rat) / 60)
      | _, _ => none)
    = (reqs.filter (fun r => r.status = RequestStatus.resolved)).map
        (fun r => (((r.resolved_at.getD 0) - r.created_at : Int) : Rat) / 60) := by
  induction reqs with
  | nil => rfl
  | cons r rest ih =>
    have hrest := fun x hx hs => hinv x (List.mem_cons_of_mem r hx) hs
    cases hrs : r.status with
    | resolved =>
      cases hra : r.resolved_at with
      | none => exact absurd hra (hinv r (List.mem_cons_self r rest) hrs)
      | some t => simpa [List.filterMap_cons, List.filter_cons, hrs, hra] using ih hrest
    | pending => simpa [List.filterMap_cons, List.filter_cons, hrs] using ih hrest
    | timeout => simpa [List.filterMap_cons, List.filter_cons, hrs] using ih hrest

theorem pyRound1_zero : pyRound1 0 = 0 := by
  norm_num [pyRound1, roundHalfEven]

theorem pyRound1_third : pyRound1 (1/3) = 3/10 := by
  have h10 : (10 : Rat) * (1/3) = 10/3 := by norm_num
  have hf : Int.floor ((10 : Rat)/3) = 3 := by
    rw [Int.floor_eq_iff]
    norm_num
  rw [pyRound1, h10, roundHalfEven]
  simp only [hf]
  norm_num

/-- C8 (amended): get_stats returns total as the window length,
resolution_rate as resolved / total * 100 rounded to one decimal (0 on
an empty window), and avg_resolution_minutes as the mean resolution
time in minutes over RESOLVED requests rounded to one decimal (0 when
none are resolved); the empty window yields all-zero statistics with no
division by zero. -/
theorem stats_formulas_C8 (reqs : List HelpRequest)
    (hinv : ∀ r ∈ reqs, r.status = RequestStatus.resolved → r.resolved_at ≠ none) :
    (get_stats reqs).total_requests = reqs.length
    ∧ (get_stats reqs).resolved
        = (reqs.filter (fun r => r.status = RequestStatus.resolved)).length
    ∧ (get_stats reqs).avg_resolution_time_minutes = pyRound1 (specAvgMinutes reqs)
    ∧ (get_stats reqs).resolution_rate
        = (if 0 < reqs.length
           then pyRound1
              ((((reqs.filter (fun r => r.status = RequestStatus.resolved)).length : Rat)
                / (reqs.length : Rat)) * 100)
           else 0)
    ∧ get_stats [] = ⟨0, 0, 0, 0, 0, 0⟩ := by
  refine ⟨rfl, rfl, ?_, rfl, ?_⟩
  · simp only [get_stats, specAvgMinutes, resolution_times_eq reqs hinv]
  · simp [get_stats, pyRound1_zero]

/-- Witness for C8 (amended) on a one-request window. -/
theorem stats_formulas_C8_witness :
    (∀ r ∈ [reqQuick], r.status = RequestStatus.resolved → r.resolved_at ≠ none)
    ∧ (get_stats [reqQuick]).avg_resolution_time_minutes = pyRound1 (specAvgMinutes [reqQuick]) :=
  ⟨by decide, (stats_formulas_C8 [reqQuick] (by decide)).2.2.1⟩

/-- Counterexample to C8 as stated: the code rounds the average to one
decimal, so on a request resolved in 20 seconds it reports 0.3 minutes,
not the exact mean 1/3. -/
theorem stats_avg_rounding_C8_cex :
    (get_stats [reqQuick]).avg_resolution_time_minutes ≠ specAvgMinutes [reqQuick]
    ∧ (get_stats [reqQuick]).avg_resolution_time_minutes = 3/10
    ∧ specAvgMinutes [reqQuick] = 1/3 := by
  have h1 : specAvgMinutes [reqQuick] = 1/3 := by
    simp [specAvgMinutes, reqQuick]
    norm_num
  have h2 : (get_stats [reqQuick]).avg_resolution_time_minutes = 3/10 := by
    have havg : (get_stats [reqQuick]).avg_resolution_time_minutes
        = pyRound1 ((((20 : Int) : Rat) / 60) / 1) := by
      simp [get_stats, reqQuick]
    rw [havg]
    have : (((20 : Int) : Rat) / 60) / 1 = 1/3 := by norm_num
    rw [this, pyRound1_third]
  refine ⟨?_, h2, h1⟩
  rw [h1, h2]
  norm_num

end Frontdesk

